import Mathlib

/-!
Verification development for the `fastapi_mongo_base` persistence layer:
a shallow embedding of the query-filter compiler, pagination clamping,
entity lifecycle operations (`src/fastapi_mongo_base/models.py`,
`src/fastapi_mongo_base/schemas.py`) and the keyed condition registry
(`src/fastapi_mongo_base/utils/conditions.py`), together with theorems
about the behaviours the specification describes.
-/

namespace FastapiMongoBase

/-! ## Python value model

Filter values arriving at the compiler are loosely typed Python values.
We model the scalar values the code actually distinguishes
(`None`, `bool`, `int`, `float`/`Decimal` as rationals, `str`,
`uuid.UUID`, `datetime`/`date` as integer ticks) plus flat lists of
scalars.  Nested lists never reach `list(set(...))` in the source:
Python `set` requires hashable elements, and a nested list is
unhashable, so the flat-list domain is exactly where the source code is
defined. -/

inductive PyScalar where
  | pNone
  | pBool (b : Bool)
  | pInt (n : Int)
  | pFloat (q : ℚ)
  | pStr (s : String)
  | pUUID (n : Nat)
  | pDT (t : Int)
  deriving DecidableEq, Repr

inductive PyVal where
  | scalar (v : PyScalar)
  | array (l : List PyScalar)
  deriving DecidableEq, Repr

/-- Embedding of Python `list(set(l))`.  Python's `set` iteration order
is unspecified, so we fix one canonical order (keep the first
occurrence of each element); theorems about membership sets are stated
up to `toFinset`. -/
def pySet (l : List PyScalar) : List PyScalar := l.dedup

/-! ## Character-level string helpers

Lean's built-in `String.trim`/`String.splitOn` do not reduce inside the
kernel, so we embed Python's `str.strip`, `str.split(",")` and the
single-character `startswith`/`endswith` checks directly over the
character list of the string. -/

/-- Python `str.strip()` whitespace set (ASCII part). -/
def isPyWs (c : Char) : Bool :=
  c = ' ' ∨ c = '\t' ∨ c = '\n' ∨ c = '\r' ∨ c = '\x0b' ∨ c = '\x0c'

def stripChars (l : List Char) : List Char :=
  ((l.dropWhile isPyWs).reverse.dropWhile isPyWs).reverse

/-- Embedding of Python `s.strip()`. -/
def pyStrip (s : String) : String := String.mk (stripChars s.toList)

def splitCommaChars : List Char → List (List Char)
  | [] => [[]]
  | c :: cs =>
    let r := splitCommaChars cs
    if c = ',' then [] :: r
    else
      match r with
      | t :: ts => (c :: t) :: ts
      | [] => [[c]]

/-- Embedding of Python `s.split(",")`. -/
def pySplitComma (s : String) : List String :=
  (splitCommaChars s.toList).map String.mk

/-- Embedding of Python `s.startswith(c)` for a one-character pattern. -/
def strHeadIs (c : Char) (s : String) : Bool :=
  match s.toList with
  | [] => false
  | d :: _ => d = c

/-- Embedding of Python `s.endswith(c)` for a one-character pattern. -/
def strLastIs (c : Char) (s : String) : Bool :=
  match s.toList.getLast? with
  | some d => d = c
  | none => false

/-! ## `json.loads`, restricted to what the call site can feed it

`BaseEntity._parse_array_parameter` calls `loads` only on trimmed text
that starts with `[` and ends with `]`, and uses the result only when
it is a flat list of scalars (see above).  We model a recursive-descent
JSON reader for exactly that fragment: arrays of strings (with the
common escapes), integers, booleans and null, plus bare scalars.
A parse failure returns `none`, mirroring the caught exception. -/

def isJsonWs (c : Char) : Bool :=
  c = ' ' || c = '\t' || c = '\n' || c = '\r'

def jsonSkipWs (l : List Char) : List Char := l.dropWhile isJsonWs

def jsonEscChar (c : Char) : Option Char :=
  if c = 'n' then some '\n'
  else if c = 't' then some '\t'
  else if c = 'r' then some '\r'
  else if c = '"' ∨ c = '\\' ∨ c = '/' then some c
  else none

/-- Parse the rest of a JSON string literal (after the opening quote).
Returns the decoded characters and the remaining input. -/
def jsonStrRest : List Char → Option (List Char × List Char)
  | [] => none
  | c :: cs =>
    if c = '"' then some ([], cs)
    else if c = '\\' then
      match cs with
      | [] => none
      | e :: cs2 =>
        (jsonEscChar e).bind fun d =>
          (jsonStrRest cs2).map fun pr => (d :: pr.1, pr.2)
    else (jsonStrRest cs).map fun pr => (c :: pr.1, pr.2)

def jsonDigits (cs : List Char) : (List Char × List Char) :=
  cs.span Char.isDigit

def digitsToNat (ds : List Char) : Nat :=
  ds.foldl (fun acc c => 10 * acc + (c.toNat - 48)) 0

/-- Recognise one of the three JSON keyword literals at the head of the
input. -/
def jsonKeyword (cs : List Char) : Option (PyScalar × List Char) :=
  if cs.take 4 = String.toList "true" then some (.pBool true, cs.drop 4)
  else if cs.take 5 = String.toList "false" then some (.pBool false, cs.drop 5)
  else if cs.take 4 = String.toList "null" then some (.pNone, cs.drop 4)
  else none

/-- Parse one JSON scalar token. -/
def jsonScalarTok (cs : List Char) : Option (PyScalar × List Char) :=
  match cs with
  | [] => none
  | c :: rest =>
    if c = '"' then
      match jsonStrRest rest with
      | some (s, rest2) => some (.pStr (String.mk s), rest2)
      | none => none
    else if c = '-' then
      match jsonDigits rest with
      | ([], _) => none
      | (ds, rest2) => some (.pInt (-(digitsToNat ds : Int)), rest2)
    else if c.isDigit then
      match jsonDigits (c :: rest) with
      | ([], _) => none
      | (ds, rest2) => some (.pInt (digitsToNat ds : Int), rest2)
    else jsonKeyword (c :: rest)

/-- Parse the elements of a JSON array after the opening bracket,
with explicit fuel (the input length bounds the recursion). -/
def jsonElems : Nat → List Char → Option (List PyScalar × List Char)
  | 0, _ => none
  | fuel + 1, input =>
    let trimmed := jsonSkipWs input
    if trimmed.head? = some ']' then some ([], trimmed.tail)
    else
      (jsonScalarTok trimmed).bind fun pr =>
        let after := jsonSkipWs pr.2
        if after.head? = some ']' then some ([pr.1], after.tail)
        else if after.head? = some ',' then
          (jsonElems fuel (jsonSkipWs after.tail)).map fun rs => (pr.1 :: rs.1, rs.2)
        else none

/-- Model of `json.loads` on the fragment that can reach it here:
a JSON array of scalars or a bare scalar, with surrounding whitespace.
`none` models a raised `JSONDecodeError`/`ValueError`. -/
def loads (s : String) : Option PyVal :=
  let cs := jsonSkipWs s.toList
  if cs.head? = some '[' then
    (jsonElems (cs.length + 1) (jsonSkipWs cs.tail)).bind fun pr =>
      if jsonSkipWs pr.2 = [] then some (.array pr.1) else none
  else
    (jsonScalarTok cs).bind fun pr =>
      if jsonSkipWs pr.2 = [] then some (.scalar pr.1) else none

/-! ## `BaseEntity._parse_array_parameter` -/

/-- The comma-separated fallback branch:
`list(set([v.strip() for v in value.split(",") if v.strip()]))`. -/
def commaSplitValues (s : String) : List PyScalar :=
  pySet ((((pySplitComma s).map pyStrip).filter (fun t => t ≠ "")).map PyScalar.pStr)

/-- Embedding of `BaseEntity._parse_array_parameter` from
`models.py`: collections are deduplicated as-is; text that (after
trimming) is bracketed is parsed as JSON and deduplicated, falling back
to comma-splitting when the parse fails; any other text is
comma-split with tokens trimmed, empties dropped, duplicates removed;
a non-text scalar is wrapped in a singleton list. -/
def parseArrayParameter (value : PyVal) : List PyScalar :=
  match value with
  | .array l => pySet l
  | .scalar sv =>
    match sv with
    | .pStr s =>
      if strHeadIs '[' (pyStrip s) ∧ strLastIs ']' (pyStrip s) then
        match loads (pyStrip s) with
        | some (.array l) => pySet l
        | some (.scalar x) => [x]
        | none => commaSplitValues (pyStrip s)
      else commaSplitValues (pyStrip s)
    | x => [x]

/-- Decidable equality for `Except`, so that behaviour of the fallible
operations can be settled on concrete inputs by `decide`. -/
instance {ε α : Type} [DecidableEq ε] [DecidableEq α] : DecidableEq (Except ε α) := fun x y =>
  match x, y with
  | .error e, .error f =>
    if h : e = f then isTrue (by rw [h]) else isFalse (fun hc => h (Except.error.inj hc))
  | .ok a, .ok b =>
    if h : a = b then isTrue (by rw [h]) else isFalse (fun hc => h (Except.ok.inj hc))
  | .error _, .ok _ => isFalse (fun hc => Except.noConfusion hc)
  | .ok _, .error _ => isFalse (fun hc => Except.noConfusion hc)

/-! ## The query filter compiler (`BaseEntity.get_queryset` and friends) -/

/-- Embedding of Python `field.endswith(suf)`. -/
def strEndsWithOn (suf : String) (s : String) : Bool :=
  suf.toList.isSuffixOf s.toList

/-- Embedding of Python slicing `s[:-n]`. -/
def strDropRight (n : Nat) (s : String) : String :=
  String.mk (s.toList.take (s.toList.length - n))

/-- Embedding of `BaseEntity._get_base_field_name`: strip one trailing
`_from` / `_to` / `_in` / `_nin` suffix. -/
def getBaseFieldName (field : String) : String :=
  if strEndsWithOn "_from" field then strDropRight 5 field
  else if strEndsWithOn "_to" field then strDropRight 3 field
  else if strEndsWithOn "_in" field then strDropRight 3 field
  else if strEndsWithOn "_nin" field then strDropRight 4 field
  else field

/-- Embedding of `BaseEntity._is_valid_range_value`:
`isinstance(value, (int, float, Decimal, datetime, date, str))`.
Python `bool` is a subclass of `int`, so booleans pass the check;
`None`, UUIDs and lists do not. -/
def isValidRangeValue (value : PyVal) : Bool :=
  match value with
  | .scalar (.pInt _) => true
  | .scalar (.pBool _) => true
  | .scalar (.pFloat _) => true
  | .scalar (.pStr _) => true
  | .scalar (.pDT _) => true
  | _ => false

/-- One atomic condition of the compiled MongoDB predicate. -/
inductive Cond where
  | eq (field : String) (v : PyVal)
  | gte (field : String) (v : PyVal)
  | lte (field : String) (v : PyVal)
  | inList (field : String) (l : List PyScalar)
  | ninList (field : String) (l : List PyScalar)
  deriving DecidableEq, Repr

/-- Static description of an entity kind, as `get_queryset` consults it:
`fields` models the attribute set (`hasattr(cls, name)`), and the two
search sets model `search_field_set()` (allow-list, empty = none
declared) and `search_exclude_set()` (deny-list). -/
structure ClsDesc where
  fields : List String
  searchFieldSet : List String
  searchExcludeSet : List String
  deriving DecidableEq, Repr

/-- The body of the `for key, value in kwargs.items()` loop of
`BaseEntity.get_queryset`: the conditions (possibly none) contributed by
one caller-supplied filter entry. -/
def compileKwarg (cls : ClsDesc) (key : String) (value : PyVal) : List Cond :=
  if value = .scalar .pNone then []
  else if cls.searchFieldSet ≠ [] ∧ getBaseFieldName key ∉ cls.searchFieldSet then []
  else if cls.searchExcludeSet ≠ [] ∧ getBaseFieldName key ∈ cls.searchExcludeSet then []
  else if getBaseFieldName key ∉ cls.fields then []
  else if strEndsWithOn "_from" key ∨ strEndsWithOn "_to" key then
    if isValidRangeValue value then
      if strEndsWithOn "_from" key then [.gte (getBaseFieldName key) value]
      else [.lte (getBaseFieldName key) value]
    else []
  else if strEndsWithOn "_in" key ∨ strEndsWithOn "_nin" key then
    if strEndsWithOn "_in" key then [.inList (getBaseFieldName key) (parseArrayParameter value)]
    else [.ninList (getBaseFieldName key) (parseArrayParameter value)]
  else [.eq key value]

/-- Embedding of `BaseEntity.get_queryset`.  `userId` and `uid` are
UUIDs (`none` models Python `None`; a UUID object is always truthy);
`businessName` is appended whenever the kind has the attribute, even
when the value is `None`.  `kwargs` is the insertion-ordered keyword
map. -/
def getQueryset (cls : ClsDesc) (userId : Option Nat) (businessName : Option String)
    (isDeleted : Bool) (uid : Option Nat) (kwargs : List (String × PyVal)) : List Cond :=
  Cond.eq "is_deleted" (.scalar (.pBool isDeleted)) ::
  ((if "user_id" ∈ cls.fields ∧ userId.isSome then
      [Cond.eq "user_id" (.scalar (.pUUID (userId.getD 0)))]
    else []) ++
   ((if "business_name" ∈ cls.fields then
       [Cond.eq "business_name"
          (match businessName with
           | some s => .scalar (.pStr s)
           | none => .scalar .pNone)]
     else []) ++
    ((if uid.isSome then [Cond.eq "uid" (.scalar (.pUUID (uid.getD 0)))] else []) ++
     kwargs.flatMap (fun kv => compileKwarg cls kv.1 kv.2))))

/-- Embedding of `BaseEntity.get_query`'s predicate construction: it
forwards to `get_queryset`, adding `created_at_from` / `created_at_to`
ahead of the remaining keyword filters. -/
def getQuery (cls : ClsDesc) (userId : Option Nat) (businessName : Option String)
    (isDeleted : Bool) (uid : Option Nat) (createdAtFrom createdAtTo : PyVal)
    (kwargs : List (String × PyVal)) : List Cond :=
  getQueryset cls userId businessName isDeleted uid
    (("created_at_from", createdAtFrom) :: ("created_at_to", createdAtTo) :: kwargs)

/-- The predicate that `BaseEntity.get_item` executes: `get_query` with
the identifier bound and no `created_at` range. -/
def baseGetItemQuery (cls : ClsDesc) (uid : Nat) (userId : Option Nat)
    (businessName : Option String) (isDeleted : Bool)
    (kwargs : List (String × PyVal)) : List Cond :=
  getQuery cls userId businessName isDeleted (some uid)
    (.scalar .pNone) (.scalar .pNone) kwargs

/-- Fields shared by every entity kind (`CoreEntitySchema` +
`BaseEntitySchema`). -/
def baseFields : List String :=
  ["uid", "created_at", "updated_at", "is_deleted", "meta_data"]

/-- Descriptor of a plain `BaseEntity` kind: no allow-list declared,
deny-list `["meta_data"]` (the schema defaults). -/
def baseDesc : ClsDesc := ⟨baseFields, [], ["meta_data"]⟩

/-- Descriptor of an `OwnedEntity` kind (adds `user_id`). -/
def ownedDesc : ClsDesc := ⟨baseFields ++ ["user_id"], [], ["meta_data"]⟩

/-- Descriptor of a `BusinessEntity` kind (adds `business_name`). -/
def businessDesc : ClsDesc := ⟨baseFields ++ ["business_name"], [], ["meta_data"]⟩

/-- Descriptor of a `BusinessOwnedEntity` kind (adds both). -/
def businessOwnedDesc : ClsDesc :=
  ⟨baseFields ++ ["user_id", "business_name"], [], ["meta_data"]⟩

/-! ## The exception-aware compiler layer

`_parse_array_parameter` is not total on the code: when the trimmed
bracketed text parses as JSON to a list containing an unhashable
element (a nested list), `list(set(parsed))` at `models.py:73` raises
`TypeError`, which the `except (json.JSONDecodeError, ValueError)`
clause does not catch, so the whole compilation raises.  The pure
functions above describe the non-raising inputs; the definitions below
re-run the same pipeline in `Except`, with a nested-capable JSON reader
so that this error path is represented.  (A caller-supplied collection
is a flat scalar list in this model — a genuinely nested Python list is
unhashable and out of the source's own domain, see `PyVal` — so only
the JSON-text route can reach the raising branch.) -/

/-- A parsed JSON value as `json.loads` can actually return it here:
a scalar or an arbitrarily nested array. -/
inductive JsonTree where
  | jscalar (v : PyScalar)
  | jarr (l : List JsonTree)

mutual

/-- Nested-capable counterpart of the top-level JSON value reader,
fuelled. -/
def jsonTreeVal : Nat → List Char → Option (JsonTree × List Char)
  | 0, _ => none
  | fuel + 1, cs =>
    if (jsonSkipWs cs).head? = some '[' then
      (jsonTreeElems fuel (jsonSkipWs (jsonSkipWs cs).tail)).map fun pr =>
        (JsonTree.jarr pr.1, pr.2)
    else
      (jsonScalarTok (jsonSkipWs cs)).map fun pr => (JsonTree.jscalar pr.1, pr.2)

/-- Elements of a (possibly nested) JSON array after the opening
bracket. -/
def jsonTreeElems : Nat → List Char → Option (List JsonTree × List Char)
  | 0, _ => none
  | fuel + 1, cs =>
    if (jsonSkipWs cs).head? = some ']' then some ([], (jsonSkipWs cs).tail)
    else
      (jsonTreeVal fuel (jsonSkipWs cs)).bind fun pr =>
        if (jsonSkipWs pr.2).head? = some ']' then
          some ([pr.1], (jsonSkipWs pr.2).tail)
        else if (jsonSkipWs pr.2).head? = some ',' then
          (jsonTreeElems fuel (jsonSkipWs (jsonSkipWs pr.2).tail)).map fun rs =>
            (pr.1 :: rs.1, rs.2)
        else none

end

/-- Nested-capable model of `json.loads` (same external-parser
approximations as `loads`, which it refines with nesting). -/
def loadsTree (s : String) : Option JsonTree :=
  (jsonTreeVal (2 * s.toList.length + 2) s.toList).bind fun pr =>
    if jsonSkipWs pr.2 = [] then some pr.1 else none

/-- Is this parsed JSON value hashable for Python `set`?  A nested list
is not. -/
def JsonTree.isScalar : JsonTree → Bool
  | .jscalar _ => true
  | .jarr _ => false

def scalarsOnly (l : List JsonTree) : Bool := l.all JsonTree.isScalar

def treeScalars (l : List JsonTree) : List PyScalar :=
  l.filterMap fun t =>
    match t with
    | .jscalar v => some v
    | .jarr _ => none

/-- Python `list(set(parsed))` on a parsed JSON list: raises
`TypeError` when some element is unhashable (a nested list). -/
def pySetTree (l : List JsonTree) : Except String (List PyScalar) :=
  if scalarsOnly l then .ok (pySet (treeScalars l))
  else .error "TypeError: unhashable type: list"

/-- Exception-aware embedding of `BaseEntity._parse_array_parameter`:
identical to `parseArrayParameter` except that the
`list(set(parsed))` call on successfully parsed bracketed JSON raises
(uncaught) when the parsed list holds an unhashable element. -/
def parseArrayParameterE (value : PyVal) : Except String (List PyScalar) :=
  match value with
  | .array l => .ok (pySet l)
  | .scalar sv =>
    match sv with
    | .pStr s =>
      if strHeadIs '[' (pyStrip s) ∧ strLastIs ']' (pyStrip s) then
        match loadsTree (pyStrip s) with
        | some (.jarr l) => pySetTree l
        | some (.jscalar x) => .ok [x]
        | none => .ok (commaSplitValues (pyStrip s))
      else .ok (commaSplitValues (pyStrip s))
    | x => .ok [x]

/-- Exception-aware counterpart of `compileKwarg`: same guards and
dispatch, propagating the membership-parse `TypeError`. -/
def compileKwargE (cls : ClsDesc) (key : String) (value : PyVal) :
    Except String (List Cond) :=
  if value = .scalar .pNone then .ok []
  else if cls.searchFieldSet ≠ [] ∧ getBaseFieldName key ∉ cls.searchFieldSet then .ok []
  else if cls.searchExcludeSet ≠ [] ∧ getBaseFieldName key ∈ cls.searchExcludeSet then .ok []
  else if getBaseFieldName key ∉ cls.fields then .ok []
  else if strEndsWithOn "_from" key ∨ strEndsWithOn "_to" key then
    if isValidRangeValue value then
      if strEndsWithOn "_from" key then .ok [.gte (getBaseFieldName key) value]
      else .ok [.lte (getBaseFieldName key) value]
    else .ok []
  else if strEndsWithOn "_in" key ∨ strEndsWithOn "_nin" key then
    match parseArrayParameterE value with
    | .error e => .error e
    | .ok vl =>
      if strEndsWithOn "_in" key then .ok [.inList (getBaseFieldName key) vl]
      else .ok [.ninList (getBaseFieldName key) vl]
  else .ok [.eq key value]

/-- The `for key, value in kwargs.items()` loop, aborting at the first
raising entry. -/
def compileKwargsE (cls : ClsDesc) : List (String × PyVal) → Except String (List Cond)
  | [] => .ok []
  | kv :: rest =>
    match compileKwargE cls kv.1 kv.2 with
    | .error e => .error e
    | .ok cs =>
      match compileKwargsE cls rest with
      | .error e => .error e
      | .ok csr => .ok (cs ++ csr)

/-- Exception-aware `BaseEntity.get_queryset`. -/
def getQuerysetE (cls : ClsDesc) (userId : Option Nat) (businessName : Option String)
    (isDeleted : Bool) (uid : Option Nat) (kwargs : List (String × PyVal)) :
    Except String (List Cond) :=
  match compileKwargsE cls kwargs with
  | .error e => .error e
  | .ok rest =>
    .ok (Cond.eq "is_deleted" (.scalar (.pBool isDeleted)) ::
      ((if "user_id" ∈ cls.fields ∧ userId.isSome then
          [Cond.eq "user_id" (.scalar (.pUUID (userId.getD 0)))]
        else []) ++
       ((if "business_name" ∈ cls.fields then
           [Cond.eq "business_name"
              (match businessName with
               | some s => .scalar (.pStr s)
               | none => .scalar .pNone)]
         else []) ++
        ((if uid.isSome then [Cond.eq "uid" (.scalar (.pUUID (uid.getD 0)))] else []) ++
         rest))))

/-- Exception-aware `BaseEntity.get_query` predicate construction. -/
def getQueryE (cls : ClsDesc) (userId : Option Nat) (businessName : Option String)
    (isDeleted : Bool) (uid : Option Nat) (createdAtFrom createdAtTo : PyVal)
    (kwargs : List (String × PyVal)) : Except String (List Cond) :=
  getQuerysetE cls userId businessName isDeleted uid
    (("created_at_from", createdAtFrom) :: ("created_at_to", createdAtTo) :: kwargs)

/-- Exception-aware predicate compilation of `BaseEntity.get_item`. -/
def baseGetItemQueryE (cls : ClsDesc) (uid : Nat) (userId : Option Nat)
    (businessName : Option String) (isDeleted : Bool)
    (kwargs : List (String × PyVal)) : Except String (List Cond) :=
  getQueryE cls userId businessName isDeleted (some uid)
    (.scalar .pNone) (.scalar .pNone) kwargs

/-- Embedding of `BusinessEntity.get_item` /
`BusinessOwnedEntity.get_item` up to predicate compilation: a missing
tenant name raises `ValueError("business_name is required")`; otherwise
the call reaches `BaseEntity.get_item`, whose compilation can itself
raise the membership-parse `TypeError`. -/
def businessGetItemCompiledE (cls : ClsDesc) (uid : Nat) (userId : Option Nat)
    (businessName : Option String) (isDeleted : Bool)
    (kwargs : List (String × PyVal)) : Except String (List Cond) :=
  if businessName = none then .error "business_name is required"
  else baseGetItemQueryE cls uid userId businessName isDeleted kwargs

/-- Embedding of `OwnedEntity.get_item` up to predicate compilation:
`user_id is required` unless the owner id is present or the keyword
argument `ignore_user_id` equals `True`; the keyword map (including
`ignore_user_id` itself) is forwarded to the base compiler. -/
def ownedGetItemCompiled (uid : Nat) (userId : Option Nat) (isDeleted : Bool)
    (kwargs : List (String × PyVal)) : Except String (List Cond) :=
  if userId = none ∧ kwargs.lookup "ignore_user_id" ≠ some (.scalar (.pBool true)) then
    .error "user_id is required"
  else .ok (baseGetItemQuery ownedDesc uid userId none isDeleted kwargs)

/-! ## Pagination clamping (`BaseEntity.adjust_pagination`)

`Settings.page_max_limit` is the hard-coded process-wide ceiling `100`;
we keep it as a parameter so the clamping law can be stated for any
ceiling and instantiated at `100`.  The `fastapi.params.Query`
default-unwrapping at the top of the Python function is typed glue with
no effect on integer inputs and is not modelled. -/

/-- Python `x or d` on an optional integer: `None` and `0` are falsy. -/
def pyOrInt (v : Option Int) (d : Int) : Int :=
  match v with
  | none => d
  | some n => if n = 0 then d else n

/-- `Settings.page_max_limit`. -/
def pageMaxLimit : Int := 100

/-- Embedding of `BaseEntity.adjust_pagination`:
`offset = max(offset or 0, 0)` and
`limit = max(1, min(limit or 10, page_max_limit))`. -/
def adjustPagination (pageMax : Int) (offset limit : Option Int) : Int × Int :=
  (max (pyOrInt offset 0) 0, max 1 (min (pyOrInt limit 10) pageMax))

/-! ## Entities, the document store, and predicate matching

The document-store driver is external to the core; the spec only
assumes it evaluates a conjunction of equality / range / membership
conditions.  We model documents as records with the schema's fixed
fields plus an open field bag, and stores as lists of documents keyed
by `uid`. -/

structure Entity where
  uid : Nat
  createdAt : Int
  updatedAt : Int
  isDeleted : Bool
  extra : List (String × PyVal)
  deriving DecidableEq, Repr

/-- Read a document field as a Python value. -/
def entityField (e : Entity) (f : String) : Option PyVal :=
  if f = "uid" then some (.scalar (.pUUID e.uid))
  else if f = "created_at" then some (.scalar (.pDT e.createdAt))
  else if f = "updated_at" then some (.scalar (.pDT e.updatedAt))
  else if f = "is_deleted" then some (.scalar (.pBool e.isDeleted))
  else e.extra.lookup f

/-- Driver-side comparison used for `$gte`/`$lte`: defined within one
scalar type, false across types (missing-field and cross-type BSON
ordering subtleties are irrelevant to the theorems below). -/
def scalarLe : PyScalar → PyScalar → Bool
  | .pInt a, .pInt b => a ≤ b
  | .pFloat a, .pFloat b => a ≤ b
  | .pStr a, .pStr b => a ≤ b
  | .pDT a, .pDT b => a ≤ b
  | _, _ => false

/-- Driver-side evaluation of one atomic condition on a document. -/
def condHolds (e : Entity) : Cond → Bool
  | .eq f v => entityField e f = some v
  | .gte f v =>
    match entityField e f, v with
    | some (.scalar a), .scalar b => scalarLe b a
    | _, _ => false
  | .lte f v =>
    match entityField e f, v with
    | some (.scalar a), .scalar b => scalarLe a b
    | _, _ => false
  | .inList f l =>
    match entityField e f with
    | some (.scalar a) => a ∈ l
    | _ => false
  | .ninList f l =>
    match entityField e f with
    | some (.scalar a) => ¬ a ∈ l
    | _ => false

/-- A document matches the `$and` of the compiled conditions. -/
def matchesAll (e : Entity) (conds : List Cond) : Bool :=
  conds.all (condHolds e)

/-- The driver's `find(...).to_list()`: the documents matching the
compiled predicate, in store order. -/
def runFind (store : List Entity) (conds : List Cond) : List Entity :=
  store.filter (fun e => matchesAll e conds)

/-! ## Single-item lookup result (`BaseEntity.get_item`) -/

/-- The tail of `BaseEntity.get_item` after the query ran:
`if not items: return None`, `if len(items) > 1: raise
ValueError("Multiple items found")`, else `return items[0]`. -/
def getItemResult (items : List Entity) : Except String (Option Entity) :=
  if items.isEmpty then .ok none
  else if 1 < items.length then .error "Multiple items found"
  else .ok items.head?

/-- `BaseEntity.get_item` over a modelled store: run the compiled
identifier-bound predicate, then post-process the match list. -/
def getItemExec (store : List Entity) (conds : List Cond) : Except String (Option Entity) :=
  getItemResult (runFind store conds)

/-! ## Lifecycle operations (`create_item`, `delete_item`, immutables) -/

/-- The `pre_save` hook: every successful write refreshes
`updated_at`. -/
def preSave (now : Int) (e : Entity) : Entity := { e with updatedAt := now }

/-- `item.save()`: apply the `pre_save` hook, then replace the document
with the same `uid` (or insert it when new).  Returns the new store and
the persisted document. -/
def saveEntity (now : Int) (store : List Entity) (e : Entity) : List Entity × Entity :=
  (if store.any (fun d => d.uid = (preSave now e).uid) then
     store.map (fun d => if d.uid = (preSave now e).uid then preSave now e else d)
   else store ++ [preSave now e], preSave now e)

/-- Embedding of `BaseEntity.delete_item`: set `is_deleted = True` and
save — a logical delete that never removes the document. -/
def deleteItem (now : Int) (store : List Entity) (e : Entity) : List Entity × Entity :=
  saveEntity now store { e with isDeleted := true }

/-- A well-typed create payload for `cls(**data)`: `none` means the
caller omitted the field, so the pydantic default factory applies. -/
structure CreatePayload where
  uid : Option Nat := none
  createdAt : Option Int := none
  updatedAt : Option Int := none
  isDeleted : Option Bool := none
  extra : List (String × PyVal) := []
  deriving DecidableEq, Repr

/-- `cls(**data)`: caller-supplied values win; `uuid4()` and
`datetime.now()` defaults fill the gaps. -/
def instantiateEntity (freshUid : Nat) (now : Int) (p : CreatePayload) : Entity :=
  { uid := p.uid.getD freshUid
    createdAt := p.createdAt.getD now
    updatedAt := p.updatedAt.getD now
    isDeleted := p.isDeleted.getD false
    extra := p.extra }

/-- Embedding of `BaseEntity.create_item` as the source executes it:
the allow-list/exclude-list filtering in its body is commented out, so
the payload is passed to `cls(**data)` unfiltered and then saved. -/
def createItem (freshUid : Nat) (now : Int) (store : List Entity)
    (data : CreatePayload) : List Entity × Entity :=
  saveEntity now store (instantiateEntity freshUid now data)

/-- `CoreEntitySchema.create_exclude_set` (from `schemas.py`). -/
def createExcludeSet : List String := ["uid", "created_at", "updated_at", "is_deleted"]

/-- `CoreEntitySchema.create_field_set` (empty: no allow-list declared
by default). -/
def createFieldSet : List String := []

/-- Modelled from the spec's words (for comparison with `createItem`):
`create(kind, payload)` with the declared create-allow-list applied and
the server-controlled fields `uid`, `created_at`, `updated_at`,
`is_deleted` always excluded from the caller payload. -/
def createItemSpecFiltered (freshUid : Nat) (now : Int) (store : List Entity)
    (data : CreatePayload) : List Entity × Entity :=
  createItem freshUid now store
    { data with uid := none, createdAt := none, updatedAt := none, isDeleted := none }

/-- Embedding of `ImmutableBase.update_item`: raises unconditionally,
before any access to the store, which it therefore returns unchanged. -/
def immutableUpdateItem (store : List Entity) (item : Entity)
    (data : List (String × PyVal)) : Except String Entity × List Entity :=
  (.error "Immutable items cannot be updated", store)

/-- Embedding of `ImmutableBase.delete_item`: raises unconditionally,
before any access to the store, which it therefore returns unchanged. -/
def immutableDeleteItem (store : List Entity) (item : Entity) :
    Except String Entity × List Entity :=
  (.error "Immutable items cannot be deleted", store)

/-- `ImmutableBase` does not override `create_item`, so creating an
immutable entity is exactly `BaseEntity.create_item`. -/
def immutableCreateItem : Nat → Int → List Entity → CreatePayload → List Entity × Entity :=
  createItem

/-! ## The keyed condition registry (`utils/conditions.py`)

`Conditions` keeps a process-wide table `_conditions : dict[UUID,
asyncio.Condition]`.  Under asyncio's cooperative scheduler the only
suspension point inside `wait_condition` is `await condition.wait()`
(the lock of a freshly created or notified condition is uncontended, so
`async with` acquires synchronously), and `release_condition` runs
without suspension from its membership check through `notify_all` and
`cleanup_condition`.  We therefore model each operation as the atomic
steps between suspension points of a labelled transition system:

  * `waitStart tid k` — the prefix of `wait_condition` on task `tid`:
    `get_condition` (create the entry if absent) and block on it;
  * `releaseStep k` — all of `release_condition`: no-op when no entry
    exists, otherwise wake every waiter of the current entry and pop it;
  * `wakeCleanup tid` — the suffix of `wait_condition` after a wake-up:
    `cleanup_condition` (pop whatever entry the key currently has) and
    return.

Entries carry a generation number so that "a fresh entry" after a
completed release/cleanup cycle is a different entry, as a new
`asyncio.Condition` object is. -/

inductive Phase where
  | idle
  | blocked (k : Nat) (g : Nat)
  | woken (k : Nat)
  | finished
  deriving DecidableEq, Repr

/-- Registry state: the table (`_conditions`, keyed by UUID, valued by
the generation of its current condition object), the next fresh
generation, and the phase of every logical task. -/
structure RegistryState where
  table : Nat → Option Nat
  nextGen : Nat
  tasks : Nat → Phase

/-- `get_condition` + `async with` + `wait()` begins: create the entry
for `k` when absent and block the calling task on the entry's current
generation.  Only an idle task can start a wait. -/
def waitStart (s : RegistryState) (tid : Nat) (k : Nat) : RegistryState :=
  if s.tasks tid = Phase.idle then
    match s.table k with
    | some g => { s with tasks := fun t => if t = tid then Phase.blocked k g else s.tasks t }
    | none =>
      { table := fun k2 => if k2 = k then some s.nextGen else s.table k2
        nextGen := s.nextGen + 1
        tasks := fun t => if t = tid then Phase.blocked k s.nextGen else s.tasks t }
  else s

/-- `release_condition k`: when no entry exists, return immediately
(the state is untouched); otherwise `notify_all()` wakes every task
blocked on the entry's generation and `cleanup_condition` pops the
entry. -/
def releaseStep (s : RegistryState) (k : Nat) : RegistryState :=
  match s.table k with
  | none => s
  | some g =>
    { s with
      table := fun k2 => if k2 = k then none else s.table k2
      tasks := fun t => if s.tasks t = Phase.blocked k g then Phase.woken k else s.tasks t }

/-- The suffix of `wait_condition` once task `tid` has been woken:
`cleanup_condition` pops whatever entry key `k` currently has (a no-op
when the release already removed it) and the wait returns. -/
def wakeCleanup (s : RegistryState) (tid : Nat) : RegistryState :=
  match s.tasks tid with
  | Phase.woken k =>
    { s with
      table := fun k2 => if k2 = k then none else s.table k2
      tasks := fun t => if t = tid then Phase.finished else s.tasks t }
  | _ => s

/-- The table-hygiene invariant: an entry exists for a key only while a
waiter of that very generation is still blocked on it. -/
def registryInv (s : RegistryState) : Prop :=
  ∀ k g, s.table k = some g → ∃ tid, s.tasks tid = Phase.blocked k g

/-! ## Claim C1 — pagination clamping -/

/-- Claim C1, as stated, is false on the code: `adjust_pagination`
computes `max(1, min(limit or 10, page_max_limit))`, so a supplied
`limit = 0` is falsy, replaced by the default `10`, and the effective
limit is `10` — not the `1` that `max(1, min(0, 100))` would give. -/
theorem c1_pagination_counterexample :
    (adjustPagination pageMaxLimit (some 0) (some 0)).2 = 10 ∧
    ¬ (adjustPagination pageMaxLimit (some 0) (some 0)).2 = max 1 (min 0 pageMaxLimit) := by
  decide

/-- Claim C1 (amended): the effective window is
`offset = max(offset or 0, 0)` and
`limit = max(1, min(limit or 10, page_max_limit))`, where Python `or`
replaces a missing or zero value by the default (`0` for offset, `10`
for limit).  Hence `limit=0` gives effective limit `10` (not `1`),
`limit=10000` with `page_max_limit=100` gives `100`, `offset=-5` gives
`0`, and a limit already inside `[1, page_max_limit]` passes through
unchanged. -/
theorem c1_pagination_clamped :
    (∀ pageMax offset limit,
       adjustPagination pageMax offset limit =
         (max (pyOrInt offset 0) 0, max 1 (min (pyOrInt limit 10) pageMax))) ∧
    adjustPagination pageMaxLimit (some 0) (some 0) = (0, 10) ∧
    adjustPagination pageMaxLimit (some (-5)) (some 10000) = (0, 100) ∧
    (∀ offset l, 0 < l → l ≤ pageMaxLimit →
       adjustPagination pageMaxLimit offset (some l) = (max (pyOrInt offset 0) 0, l)) := by
  refine ⟨fun _ _ _ => rfl, by decide, by decide, ?_⟩
  intro offset l hl hle
  have hne : ¬ l = 0 := by omega
  simp only [adjustPagination, pyOrInt, if_neg hne, pageMaxLimit] at *
  congr 1
  omega

/-- Witness for `c1_pagination_clamped` at `offset = 2`, `limit = 5`. -/
theorem c1_pagination_clamped_witness :
    adjustPagination pageMaxLimit (some 2) (some 5) = (2, 5) := by
  have h := c1_pagination_clamped.2.2.2 (some 2) 5 (by decide) (by decide)
  simpa using h

/-! ## Claim C5 — single-item lookup -/

/-- Claim C5: `get_item` returns an explicit absent result (`None`,
not an exception) when zero documents match the identifier-bound
predicate, raises `ValueError("Multiple items found")` when more than
one matches, and returns the unique match otherwise — it never silently
picks a first match. -/
theorem c5_get_item_lookup :
    (∀ store conds, runFind store conds = [] →
       getItemExec store conds = .ok none) ∧
    (∀ store conds, 1 < (runFind store conds).length →
       getItemExec store conds = .error "Multiple items found") ∧
    (∀ store conds x, runFind store conds = [x] →
       getItemExec store conds = .ok (some x)) := by
  refine ⟨?_, ?_, ?_⟩
  · intro store conds h
    simp [getItemExec, getItemResult, h]
  · intro store conds h
    have hne : (runFind store conds).isEmpty = false := by
      cases hr : runFind store conds with
      | nil => rw [hr] at h; simp at h
      | cons a t => simp
    simp [getItemExec, getItemResult, hne, h]
  · intro store conds x h
    simp [getItemExec, getItemResult, h]

/-- Witness for `c5_get_item_lookup`: a store holding one matching
document yields exactly that document. -/
theorem c5_get_item_lookup_witness :
    getItemExec [⟨1, 0, 0, false, []⟩] [Cond.eq "uid" (.scalar (.pUUID 1))] =
      .ok (some ⟨1, 0, 0, false, []⟩) :=
  c5_get_item_lookup.2.2 [⟨1, 0, 0, false, []⟩] [Cond.eq "uid" (.scalar (.pUUID 1))]
    ⟨1, 0, 0, false, []⟩ (by decide)

/-! ## Claim C9 — immutable entities -/

/-- Claim C9: for every immutable entity kind, every stored state,
every entity and every payload, `update_item` and `delete_item` fail
unconditionally with the immutability errors and leave the store
untouched, while `create_item` is exactly the base behaviour
(`ImmutableBase` declares no override for it). -/
theorem c9_immutable_rejects_mutation :
    (∀ store item data,
       immutableUpdateItem store item data =
         (.error "Immutable items cannot be updated", store)) ∧
    (∀ store item,
       immutableDeleteItem store item =
         (.error "Immutable items cannot be deleted", store)) ∧
    immutableCreateItem = createItem :=
  ⟨fun _ _ _ => rfl, fun _ _ => rfl, rfl⟩

/-! ## Claim C10 — owner scoping at the single-item interface -/

/-- Claim C10: `OwnedEntity.get_item` raises
`ValueError("user_id is required")` exactly when the owner id is absent
and the keyword argument `ignore_user_id` is not `True`; passing
`ignore_user_id=True` bypasses the owner requirement entirely and the
compiled predicate simply carries no owner condition. -/
theorem c10_owner_scope_mandatory :
    (∀ uid userId isDeleted kwargs,
       (ownedGetItemCompiled uid userId isDeleted kwargs =
           .error "user_id is required" ↔
         userId = none ∧
           kwargs.lookup "ignore_user_id" ≠ some (.scalar (.pBool true)))) ∧
    (∀ uid isDeleted kwargs,
       kwargs.lookup "ignore_user_id" = some (.scalar (.pBool true)) →
       ownedGetItemCompiled uid none isDeleted kwargs =
         .ok (baseGetItemQuery ownedDesc uid none none isDeleted kwargs)) := by
  constructor
  · intro uid userId isDeleted kwargs
    unfold ownedGetItemCompiled
    split_ifs with h
    · simpa using h
    · constructor
      · intro hc
        exact absurd hc (by simp)
      · intro hc
        exact absurd hc h
  · intro uid isDeleted kwargs h
    unfold ownedGetItemCompiled
    rw [if_neg (by simp [h])]

/-- Witness for `c10_owner_scope_mandatory`: with `ignore_user_id=True`
and no owner id, the lookup proceeds and compiles the unscoped
predicate. -/
theorem c10_owner_scope_mandatory_witness :
    ownedGetItemCompiled 3 none false [("ignore_user_id", .scalar (.pBool true))] =
      .ok (baseGetItemQuery ownedDesc 3 none none false
            [("ignore_user_id", .scalar (.pBool true))]) :=
  c10_owner_scope_mandatory.2 3 false [("ignore_user_id", .scalar (.pBool true))] (by decide)

/-! ## Claim C3 — create-payload filtering -/

/-- Claim C3, as stated, is false on the code: the allow-list /
exclude-list filtering in `BaseEntity.create_item` is commented out, so
a payload carrying `uid=7`, `created_at=3` and `is_deleted=True` is
honoured verbatim — the created entity does not get the fresh
identifier (`42`) or a default `is_deleted`, and the result differs
from the behaviour the spec describes
(`createItemSpecFiltered`). -/
theorem c3_create_counterexample :
    (createItem 42 5 []
        { uid := some 7, createdAt := some 3, updatedAt := none,
          isDeleted := some true, extra := [] }).2 =
      { uid := 7, createdAt := 3, updatedAt := 5, isDeleted := true, extra := [] } ∧
    createItem 42 5 []
        { uid := some 7, createdAt := some 3, updatedAt := none,
          isDeleted := some true, extra := [] } ≠
      createItemSpecFiltered 42 5 []
        { uid := some 7, createdAt := some 3, updatedAt := none,
          isDeleted := some true, extra := [] } := by
  decide

/-- Claim C3 (amended): `create_item` applies no payload filtering —
neither the declared create-allow-list nor the server-controlled
exclusion set (`uid`, `created_at`, `updated_at`, `is_deleted`) is
enforced (that code is disabled in the source), so every
caller-supplied field value is honoured; a fresh identifier and a fresh
`created_at` arise only from the schema defaults when the payload omits
them, while `updated_at` is always set to the write time by the
`pre_save` hook.  The schema still declares the exclusion sets the spec
names. -/
theorem c3_create_unfiltered :
    (∀ freshUid now store p,
       (createItem freshUid now store p).2 =
         { uid := p.uid.getD freshUid
           createdAt := p.createdAt.getD now
           updatedAt := now
           isDeleted := p.isDeleted.getD false
           extra := p.extra }) ∧
    (∀ freshUid now store (p : CreatePayload), p.uid = none →
       (∀ d ∈ store, d.uid ≠ freshUid) →
       (createItem freshUid now store p).1 =
         store ++ [(createItem freshUid now store p).2]) ∧
    createExcludeSet = ["uid", "created_at", "updated_at", "is_deleted"] := by
  refine ⟨fun _ _ _ _ => rfl, ?_, rfl⟩
  intro freshUid now store p hUid hFresh
  have huid : (preSave now (instantiateEntity freshUid now p)).uid = freshUid := by
    simp [preSave, instantiateEntity, hUid]
  have hany : (store.any
      (fun d => d.uid = (preSave now (instantiateEntity freshUid now p)).uid)) = false := by
    rw [List.any_eq_false]
    intro d hd
    simp only [decide_eq_true_eq, huid]
    exact hFresh d hd
  simp [createItem, saveEntity, hany]

/-- Witness for `c3_create_unfiltered`: an empty payload saved into an
empty store is appended with the fresh identifier and timestamps. -/
theorem c3_create_unfiltered_witness :
    (createItem 42 5 [] {}).1 = [] ++ [(createItem 42 5 [] {}).2] :=
  c3_create_unfiltered.2.1 42 5 [] {} rfl (by simp)

/-! ## Claim C7 — soft delete -/

/-- Claim C7, as stated, is false on the code in one respect: the save
triggered by `delete_item` runs the `pre_save` hook, which refreshes
`updated_at`, so not "all other fields" are unchanged — deleting a
document whose `updated_at` is `0` at time `5` changes `updated_at`. -/
theorem c7_soft_delete_counterexample :
    (deleteItem 5 [⟨1, 0, 0, false, []⟩] ⟨1, 0, 0, false, []⟩).2.updatedAt ≠
      (⟨1, 0, 0, false, []⟩ : Entity).updatedAt := by
  decide

/-- Claim C7 (amended): after `delete_item`, the persisted document has
`is_deleted = true`, `updated_at` refreshed to the write time by the
`pre_save` hook, and all remaining fields (`uid`, `created_at`, the
open field bag) unchanged; the document is never physically removed
(the store does not shrink, and a stored document stays stored); a
default-scoped list or get no longer matches it, while the same
predicate compiled with `include_deleted=true` still does. -/
theorem c7_soft_delete :
    ∀ now store (e : Entity),
      (deleteItem now store e).2.isDeleted = true ∧
      (deleteItem now store e).2.uid = e.uid ∧
      (deleteItem now store e).2.createdAt = e.createdAt ∧
      (deleteItem now store e).2.extra = e.extra ∧
      (deleteItem now store e).2.updatedAt = now ∧
      store.length ≤ (deleteItem now store e).1.length ∧
      (deleteItem now store e).2 ∈ (deleteItem now store e).1 ∧
      matchesAll (deleteItem now store e).2
        (getQuery baseDesc none none false none (.scalar .pNone) (.scalar .pNone) []) =
        false ∧
      matchesAll (deleteItem now store e).2
        (getQuery baseDesc none none true none (.scalar .pNone) (.scalar .pNone) []) =
        true ∧
      ((deleteItem now store e).2 ∉
        runFind (deleteItem now store e).1
          (getQuery baseDesc none none false none (.scalar .pNone) (.scalar .pNone) [])) ∧
      (deleteItem now store e).2 ∈
        runFind (deleteItem now store e).1
          (getQuery baseDesc none none true none (.scalar .pNone) (.scalar .pNone) []) := by
  intro now store e
  have hdoc : (deleteItem now store e).2 =
      { e with isDeleted := true, updatedAt := now } := rfl
  have hq0 : getQuery baseDesc none none false none (.scalar .pNone) (.scalar .pNone) [] =
      [Cond.eq "is_deleted" (.scalar (.pBool false))] := by decide
  have hq1 : getQuery baseDesc none none true none (.scalar .pNone) (.scalar .pNone) [] =
      [Cond.eq "is_deleted" (.scalar (.pBool true))] := by decide
  have hm0 : matchesAll (deleteItem now store e).2
      (getQuery baseDesc none none false none (.scalar .pNone) (.scalar .pNone) []) =
      false := by
    rw [hq0, hdoc]
    simp [matchesAll, condHolds, entityField]
  have hm1 : matchesAll (deleteItem now store e).2
      (getQuery baseDesc none none true none (.scalar .pNone) (.scalar .pNone) []) =
      true := by
    rw [hq1, hdoc]
    simp [matchesAll, condHolds, entityField]
  have hmem : (deleteItem now store e).2 ∈ (deleteItem now store e).1 := by
    show preSave now { e with isDeleted := true } ∈ (deleteItem now store e).1
    unfold deleteItem saveEntity
    by_cases hc : store.any
        (fun d => d.uid = (preSave now { e with isDeleted := true }).uid) = true
    · rw [if_pos hc]
      simp only [List.any_eq_true, decide_eq_true_eq] at hc
      obtain ⟨d, hd, hduid⟩ := hc
      refine List.mem_map.mpr ⟨d, hd, ?_⟩
      simp [hduid]
    · rw [if_neg hc]
      exact List.mem_append_right _ (List.mem_singleton_self _)
  have hlen : store.length ≤ (deleteItem now store e).1.length := by
    unfold deleteItem saveEntity
    by_cases hc : store.any
        (fun d => d.uid = (preSave now { e with isDeleted := true }).uid) = true
    · rw [if_pos hc]
      simp
    · rw [if_neg hc]
      simp
  refine ⟨rfl, rfl, rfl, rfl, rfl, hlen, hmem, hm0, hm1, ?_, ?_⟩
  · intro hin
    rw [runFind, List.mem_filter] at hin
    rw [hm0] at hin
    exact absurd hin.2 (by simp)
  · rw [runFind, List.mem_filter]
    exact ⟨hmem, by rw [hm1]⟩

/-- Witness for `c7_soft_delete` at a one-document store. -/
theorem c7_soft_delete_witness :
    (deleteItem 5 [⟨1, 0, 0, false, []⟩] ⟨1, 0, 0, false, []⟩).2.isDeleted = true ∧
    (deleteItem 5 [⟨1, 0, 0, false, []⟩] ⟨1, 0, 0, false, []⟩).2 ∈
      (deleteItem 5 [⟨1, 0, 0, false, []⟩] ⟨1, 0, 0, false, []⟩).1 :=
  ⟨(c7_soft_delete 5 [⟨1, 0, 0, false, []⟩] ⟨1, 0, 0, false, []⟩).1,
   (c7_soft_delete 5 [⟨1, 0, 0, false, []⟩] ⟨1, 0, 0, false, []⟩).2.2.2.2.2.2.1⟩

/-! ## Claim C6 — membership-value parsing -/

/-- Deduplication does not change the underlying set. -/
theorem pySet_toFinset (l : List PyScalar) : (pySet l).toFinset = l.toFinset :=
  List.toFinset.ext fun _ => List.mem_dedup

/-- Claim C6: membership (`_in`/`_nin`) value parsing is idempotent and
order-independent — the comma text `"a, b, a"`, the collection
`["a","b"]` and the bracketed JSON text `"[\"a\",\"b\"]"` all parse to
the same deduplicated membership set `{a, b}`; a collection is
deduplicated as-is; trimmed bracketed text that parses as structured
data is deduplicated; any other text is comma-split with tokens
trimmed, empties dropped and duplicates removed. -/
theorem c6_membership_parsing :
    (parseArrayParameter (.scalar (.pStr "a, b, a"))).toFinset =
      ({.pStr "a", .pStr "b"} : Finset PyScalar) ∧
    (parseArrayParameter (.array [.pStr "a", .pStr "b"])).toFinset =
      ({.pStr "a", .pStr "b"} : Finset PyScalar) ∧
    (parseArrayParameter (.scalar (.pStr "[\"a\",\"b\"]"))).toFinset =
      ({.pStr "a", .pStr "b"} : Finset PyScalar) ∧
    (∀ l, parseArrayParameter (.array l) = pySet l) ∧
    (∀ l, (parseArrayParameter (.array l)).toFinset = l.toFinset) ∧
    (∀ v, (parseArrayParameter (.array (parseArrayParameter v))).toFinset =
      (parseArrayParameter v).toFinset) ∧
    (∀ l1 l2 : List PyScalar, List.Perm l1 l2 →
      (parseArrayParameter (.array l1)).toFinset =
        (parseArrayParameter (.array l2)).toFinset) ∧
    (∀ s l, strHeadIs '[' (pyStrip s) = true → strLastIs ']' (pyStrip s) = true →
      loads (pyStrip s) = some (.array l) →
      parseArrayParameter (.scalar (.pStr s)) = pySet l) ∧
    (∀ s, ¬ (strHeadIs '[' (pyStrip s) = true ∧ strLastIs ']' (pyStrip s) = true) →
      parseArrayParameter (.scalar (.pStr s)) = commaSplitValues (pyStrip s)) := by
  refine ⟨by decide, by decide, by decide, fun _ => rfl, fun l => pySet_toFinset l, ?_, ?_, ?_, ?_⟩
  · intro v
    exact pySet_toFinset (parseArrayParameter v)
  · intro l1 l2 hp
    show (pySet l1).toFinset = (pySet l2).toFinset
    rw [pySet_toFinset, pySet_toFinset]
    exact List.toFinset_eq_of_perm l1 l2 hp
  · intro s l h1 h2 h3
    simp only [parseArrayParameter]
    rw [if_pos ⟨h1, h2⟩, h3]
  · intro s h
    simp only [parseArrayParameter]
    rw [if_neg h]

/-- Witness for `c6_membership_parsing`: plain comma text takes the
fallback branch. -/
theorem c6_membership_parsing_witness :
    parseArrayParameter (.scalar (.pStr "x,y")) = commaSplitValues (pyStrip "x,y") :=
  c6_membership_parsing.2.2.2.2.2.2.2.2 "x,y" (by decide)

/-! ## Claim C8 — unfilterable keys are dropped, compilation is stable -/

/-- Entries contributing no condition can be removed from the keyword
map without changing the compiled result. -/
theorem flatMap_eq_flatMap_filter {α β : Type} [DecidableEq β] (f : α → List β)
    (l : List α) : l.flatMap f = (l.filter (fun a => f a ≠ [])).flatMap f := by
  induction l with
  | nil => rfl
  | cons a t ih =>
    by_cases h : f a = []
    · simp [List.filter_cons, h, ih]
    · simp only [List.flatMap_cons, List.filter_cons]
      simp [h, ih]

/-- Claim C8: a keyword whose base field (after suffix stripping) is
outside the declared allow-list, inside the deny-list, or not an
attribute of the kind contributes no condition to the compiled
predicate (silently dropped, fail-open); dropping all such entries from
the request leaves the compiled predicate unchanged; and compiling the
same filter map twice yields identical predicates. -/
theorem c8_unfilterable_fields_dropped :
    (∀ cls key value,
       ((cls.searchFieldSet ≠ [] ∧ getBaseFieldName key ∉ cls.searchFieldSet) ∨
        (cls.searchExcludeSet ≠ [] ∧ getBaseFieldName key ∈ cls.searchExcludeSet) ∨
        getBaseFieldName key ∉ cls.fields) →
       compileKwarg cls key value = []) ∧
    (∀ cls userId businessName isDeleted uid kwargs,
       getQueryset cls userId businessName isDeleted uid kwargs =
         getQueryset cls userId businessName isDeleted uid
           (kwargs.filter (fun kv => compileKwarg cls kv.1 kv.2 ≠ []))) ∧
    (∀ cls userId businessName isDeleted uid kwargs,
       getQueryset cls userId businessName isDeleted uid kwargs =
         getQueryset cls userId businessName isDeleted uid kwargs) := by
  refine ⟨?_, ?_, fun _ _ _ _ _ _ => rfl⟩
  · intro cls key value h
    unfold compileKwarg
    split_ifs <;> tauto
  · intro cls userId businessName isDeleted uid kwargs
    unfold getQueryset
    congr 1
    congr 1
    congr 1
    congr 1
    exact flatMap_eq_flatMap_filter _ kwargs

/-- Witness for `c8_unfilterable_fields_dropped`: the deny-listed
`meta_data` field contributes nothing. -/
theorem c8_unfilterable_fields_dropped_witness :
    compileKwarg baseDesc "meta_data" (.scalar (.pStr "x")) = [] :=
  c8_unfilterable_fields_dropped.1 baseDesc "meta_data" (.scalar (.pStr "x"))
    (by decide)

/-! ## Claim C2 — tenant scoping -/

/-- The only error `_parse_array_parameter` itself can raise is the
`TypeError` from `list(set(parsed))` on an unhashable element. -/
theorem parseArrayParameterE_error_const {v : PyVal} {e : String}
    (h : parseArrayParameterE v = .error e) :
    e = "TypeError: unhashable type: list" := by
  cases v with
  | array l => simp [parseArrayParameterE] at h
  | scalar sv =>
    cases sv with
    | pStr s =>
      simp only [parseArrayParameterE] at h
      by_cases hbr : strHeadIs '[' (pyStrip s) = true ∧ strLastIs ']' (pyStrip s) = true
      · rw [if_pos hbr] at h
        cases hl : loadsTree (pyStrip s) with
        | none =>
          simp only [hl] at h
          exact absurd h (by simp)
        | some jt =>
          cases jt with
          | jscalar x =>
            simp only [hl] at h
            exact absurd h (by simp)
          | jarr l =>
            simp only [hl] at h
            unfold pySetTree at h
            split_ifs at h with hsc
            injection h with he
            exact he.symm
      · rw [if_neg hbr] at h
        exact absurd h (by simp)
    | pNone => simp [parseArrayParameterE] at h
    | pBool b => simp [parseArrayParameterE] at h
    | pInt n => simp [parseArrayParameterE] at h
    | pFloat q => simp [parseArrayParameterE] at h
    | pUUID n => simp [parseArrayParameterE] at h
    | pDT t => simp [parseArrayParameterE] at h

/-- The only error one keyword entry can raise is the membership-parse
`TypeError`. -/
theorem compileKwargE_error_const {cls : ClsDesc} {key : String} {value : PyVal}
    {e : String} (h : compileKwargE cls key value = .error e) :
    e = "TypeError: unhashable type: list" := by
  unfold compileKwargE at h
  cases hp : parseArrayParameterE value with
  | error e2 =>
    simp only [hp] at h
    split_ifs at h
    injection h with he
    exact he ▸ parseArrayParameterE_error_const hp
  | ok vl =>
    simp only [hp] at h
    split_ifs at h

/-- The only error the keyword loop can raise is the membership-parse
`TypeError`. -/
theorem compileKwargsE_error_const {cls : ClsDesc} {e : String} :
    ∀ kwargs, compileKwargsE cls kwargs = .error e →
      e = "TypeError: unhashable type: list"
  | [], h => by simp [compileKwargsE] at h
  | kv :: rest, h => by
    unfold compileKwargsE at h
    split at h
    · rename_i e2 heq
      injection h with he
      exact he ▸ compileKwargE_error_const heq
    · rename_i cs heq
      split at h
      · rename_i e2 heq2
        injection h with he
        exact he ▸ compileKwargsE_error_const rest heq2
      · rename_i csr heq2
        exact absurd h (by simp)

/-- With a tenant name supplied, the only error the whole `get_item`
compilation can raise is the membership-parse `TypeError`. -/
theorem businessCompiledE_error_const {cls : ClsDesc} {uid : Nat} {userId : Option Nat}
    {t : String} {isDeleted : Bool} {kwargs : List (String × PyVal)} {e : String}
    (h : businessGetItemCompiledE cls uid userId (some t) isDeleted kwargs = .error e) :
    e = "TypeError: unhashable type: list" := by
  unfold businessGetItemCompiledE at h
  rw [if_neg (by simp)] at h
  unfold baseGetItemQueryE getQueryE getQuerysetE at h
  split at h
  · rename_i e2 heq
    injection h with he
    exact he ▸ compileKwargsE_error_const _ heq
  · rename_i rest heq
    exact absurd h (by simp)

/-- Claim C2, as stated, is false on the code in two ways.  First, for
a tenant-scoped kind that is also owner-scoped (`BusinessOwnedEntity`),
a supplied owner id is injected between the soft-delete condition and
the tenant condition, so the second condition is the owner equality,
not the tenant equality.  Second, compilation does not raise only on a
missing tenant name: with the tenant name present, the membership
filter `created_at_in="[[1,2]]"` parses as JSON to a nested list, and
`list(set(parsed))` (`models.py:73`) raises a `TypeError` that the
`except (json.JSONDecodeError, ValueError)` clause does not catch. -/
theorem c2_tenant_scoping_counterexample :
    businessGetItemCompiledE businessOwnedDesc 0 (some 1) (some "t") false [] =
      .ok [Cond.eq "is_deleted" (.scalar (.pBool false)),
           Cond.eq "user_id" (.scalar (.pUUID 1)),
           Cond.eq "business_name" (.scalar (.pStr "t")),
           Cond.eq "uid" (.scalar (.pUUID 0))] ∧
    Cond.eq "user_id" (.scalar (.pUUID 1)) ≠
      Cond.eq "business_name" (.scalar (.pStr "t")) ∧
    businessGetItemCompiledE businessDesc 0 none (some "t") false
        [("created_at_in", .scalar (.pStr "[[1,2]]"))] =
      .error "TypeError: unhashable type: list" := by
  decide

/-- Claim C2 (amended): for every tenant-scoped entity kind, compiling
a single-item filter without a tenant name fails with exactly the
validation error `business_name is required`; a malformed range value
is dropped and never raises; but compilation is not otherwise total —
a membership (`_in`/`_nin`) value given as bracketed JSON text whose
parse yields a list containing an unhashable element (a nested list)
raises an uncaught `TypeError` from `list(set(...))`, and with a tenant
name supplied that `TypeError` is the only possible failure.  When
compilation succeeds with a tenant name, the predicate starts with the
soft-delete condition; the tenant equality is the second condition
unless the kind is also owner-scoped and an owner id is supplied, in
which case the owner equality is second and the tenant equality
third. -/
theorem c2_tenant_scoping :
    (∀ cls uid userId businessName isDeleted kwargs,
       "business_name" ∈ cls.fields →
       (businessGetItemCompiledE cls uid userId businessName isDeleted kwargs =
           .error "business_name is required" ↔ businessName = none)) ∧
    (∀ cls key value,
       (strEndsWithOn "_from" key = true ∨ strEndsWithOn "_to" key = true) →
       isValidRangeValue value = false →
       compileKwargE cls key value = .ok []) ∧
    (∀ s l, strHeadIs '[' (pyStrip s) = true → strLastIs ']' (pyStrip s) = true →
       loadsTree (pyStrip s) = some (.jarr l) → scalarsOnly l = false →
       parseArrayParameterE (.scalar (.pStr s)) =
         .error "TypeError: unhashable type: list") ∧
    (∀ cls uid userId t isDeleted kwargs e,
       businessGetItemCompiledE cls uid userId (some t) isDeleted kwargs = .error e →
       e = "TypeError: unhashable type: list") ∧
    (∀ cls uid userId t isDeleted kwargs l,
       "business_name" ∈ cls.fields →
       businessGetItemCompiledE cls uid userId (some t) isDeleted kwargs = .ok l →
       l.head? = some (Cond.eq "is_deleted" (.scalar (.pBool isDeleted))) ∧
       (¬ ("user_id" ∈ cls.fields ∧ userId.isSome) →
          l[1]? = some (Cond.eq "business_name" (.scalar (.pStr t)))) ∧
       (("user_id" ∈ cls.fields ∧ userId.isSome) →
          l[1]? = some (Cond.eq "user_id" (.scalar (.pUUID (userId.getD 0)))) ∧
          l[2]? = some (Cond.eq "business_name" (.scalar (.pStr t))))) := by
  refine ⟨?_, ?_, ?_, ?_, ?_⟩
  · intro cls uid userId businessName isDeleted kwargs hBus
    cases businessName with
    | none =>
      unfold businessGetItemCompiledE
      simp
    | some t =>
      constructor
      · intro hc
        have hstr := businessCompiledE_error_const hc
        exact absurd hstr (by decide)
      · intro hc
        cases hc
  · intro cls key value hSuf hRange
    unfold compileKwargE
    split_ifs <;> first | rfl | simp_all
  · intro s l h1 h2 h3 h4
    simp only [parseArrayParameterE]
    rw [if_pos ⟨h1, h2⟩]
    simp only [h3]
    simp [pySetTree, h4]
  · intro cls uid userId t isDeleted kwargs e h
    exact businessCompiledE_error_const h
  · intro cls uid userId t isDeleted kwargs l hBus h
    unfold businessGetItemCompiledE at h
    rw [if_neg (by simp)] at h
    unfold baseGetItemQueryE getQueryE getQuerysetE at h
    split at h
    · rename_i e2 heq
      cases h
    · rename_i rest heq
      injection h with hl
      subst hl
      refine ⟨by simp, ?_, ?_⟩
      · intro huser
        simp [hBus, huser]
      · intro huser
        simp [hBus, huser]

/-- Witness for `c2_tenant_scoping`: for a plain tenant-scoped kind, a
present tenant name is not the missing-tenant error case. -/
theorem c2_tenant_scoping_witness :
    (businessGetItemCompiledE businessDesc 7 none (some "t") false [] =
        .error "business_name is required" ↔ (some "t" : Option String) = none) :=
  c2_tenant_scoping.1 businessDesc 7 none (some "t") false [] (by decide)

/-! ## Claim C4 — the condition-registry table retains no entries -/

/-- Claim C4: `release` on a key with no entry is a no-op leaving no
residual entry; a completed `release` removes the key's entry, and so
does the cleanup a completed `wait` runs; a `wait` started when no
entry exists (e.g. after a completed release/cleanup cycle) creates a
fresh-generation entry and leaves the task blocked — its wait cannot
complete before a release (its cleanup step is not enabled); and the
hygiene invariant that every table entry has a waiter of that very
generation still blocked on it is preserved by every step, so the table
holds an entry for a key only while a generation of waiting is
outstanding. -/
theorem c4_registry_no_residual_entries :
    (∀ s k, s.table k = none → releaseStep s k = s) ∧
    (∀ s k, (releaseStep s k).table k = none) ∧
    (∀ s tid k, s.tasks tid = Phase.woken k →
       (wakeCleanup s tid).table k = none) ∧
    (∀ s tid k, s.tasks tid = Phase.idle → s.table k = none →
       (waitStart s tid k).table k = some s.nextGen ∧
       (waitStart s tid k).tasks tid = Phase.blocked k s.nextGen ∧
       (waitStart s tid k).nextGen = s.nextGen + 1 ∧
       wakeCleanup (waitStart s tid k) tid = waitStart s tid k) ∧
    (∀ s, registryInv s →
       (∀ tid k, registryInv (waitStart s tid k)) ∧
       (∀ k, registryInv (releaseStep s k)) ∧
       (∀ tid, registryInv (wakeCleanup s tid))) := by
  refine ⟨?_, ?_, ?_, ?_, ?_⟩
  · intro s k h
    simp [releaseStep, h]
  · intro s k
    cases htab : s.table k with
    | none => simp [releaseStep, htab]
    | some g => simp [releaseStep, htab]
  · intro s tid k h
    simp [wakeCleanup, h]
  · intro s tid k hidle habs
    refine ⟨?_, ?_, ?_, ?_⟩
    · simp [waitStart, hidle, habs]
    · simp [waitStart, hidle, habs]
    · simp [waitStart, hidle, habs]
    · have hblocked : (waitStart s tid k).tasks tid = Phase.blocked k s.nextGen := by
        simp [waitStart, hidle, habs]
      simp [wakeCleanup, hblocked]
  · intro s hInv
    refine ⟨?_, ?_, ?_⟩
    · intro tid k k' g' h'
      by_cases hidle : s.tasks tid = Phase.idle
      · cases htab : s.table k with
        | some g =>
          simp only [waitStart, hidle, if_true, htab] at h' ⊢
          obtain ⟨t0, ht0⟩ := hInv k' g' h'
          have ht0ne : t0 ≠ tid := by
            intro he
            rw [he, hidle] at ht0
            cases ht0
          exact ⟨t0, by simp [ht0ne, ht0]⟩
        | none =>
          simp only [waitStart, hidle, if_true, htab] at h' ⊢
          by_cases hk : k' = k
          · have hg : s.nextGen = g' := by
              rw [hk] at h'
              simpa using h'
            refine ⟨tid, ?_⟩
            simp [hk, ← hg]
          · rw [if_neg hk] at h'
            obtain ⟨t0, ht0⟩ := hInv k' g' h'
            have ht0ne : t0 ≠ tid := by
              intro he
              rw [he, hidle] at ht0
              cases ht0
            exact ⟨t0, by simp [ht0ne, ht0]⟩
      · rw [waitStart, if_neg hidle] at h' ⊢
        exact hInv k' g' h'
    · intro k k' g' h'
      cases htab : s.table k with
      | none =>
        simp only [releaseStep, htab] at h' ⊢
        exact hInv k' g' h'
      | some g =>
        simp only [releaseStep, htab] at h' ⊢
        by_cases hk : k' = k
        · rw [if_pos hk] at h'
          cases h'
        · rw [if_neg hk] at h'
          obtain ⟨t0, ht0⟩ := hInv k' g' h'
          refine ⟨t0, ?_⟩
          have hne : ¬ s.tasks t0 = Phase.blocked k g := by
            rw [ht0]
            intro hc
            injection hc with h1 h2
            exact hk h1
          simp only [hne, if_false, ite_false]
          exact ht0
    · intro tid k' g' h'
      cases htask : s.tasks tid with
      | woken k0 =>
        simp only [wakeCleanup, htask] at h' ⊢
        by_cases hk : k' = k0
        · rw [if_pos hk] at h'
          cases h'
        · rw [if_neg hk] at h'
          obtain ⟨t0, ht0⟩ := hInv k' g' h'
          have ht0ne : t0 ≠ tid := by
            intro he
            rw [he, htask] at ht0
            cases ht0
          exact ⟨t0, by simp [ht0ne, ht0]⟩
      | idle =>
        simp only [wakeCleanup, htask] at h' ⊢
        exact hInv k' g' h'
      | blocked k0 g0 =>
        simp only [wakeCleanup, htask] at h' ⊢
        exact hInv k' g' h'
      | finished =>
        simp only [wakeCleanup, htask] at h' ⊢
        exact hInv k' g' h'

/-- Witness for `c4_registry_no_residual_entries`: in the empty
registry, releasing key `5` is a no-op. -/
theorem c4_registry_no_residual_entries_witness :
    releaseStep ⟨fun _ => none, 0, fun _ => Phase.idle⟩ 5 =
      (⟨fun _ => none, 0, fun _ => Phase.idle⟩ : RegistryState) :=
  c4_registry_no_residual_entries.1 ⟨fun _ => none, 0, fun _ => Phase.idle⟩ 5 rfl

end FastapiMongoBase
